import Mathlib

/-!
Verification of the segment lifecycle and strategy-association engine
(`SegmentService`): a shallow embedding of the service code over an explicit
store state, with the external stores (`SegmentStore`, the strategy lookup and
the event sink) modelled from their interface contracts.

The service methods are translated from `SegmentService` in the source; the
store operations, which live outside this repository, are modelled from the
spec's interface contracts (§6) and link-table invariants (§3, §7).
-/

/-- A single constraint of a segment; `values` is the optional list of match
values (`constraint.values` may be absent). -/
structure Constraint where
  values : Option (List String)
deriving DecidableEq

/-- A typed candidate segment, the output of the structural schema validator
(`segmentSchema.validateAsync`): everything of a segment except the
store-assigned id. -/
structure SegmentInput where
  name : String
  project : Option String
  constraints : List Constraint
deriving DecidableEq

/-- A persisted segment record (`ISegment`). -/
structure Segment where
  id : Nat
  name : String
  project : Option String
  constraints : List Constraint
deriving DecidableEq

/-- A feature strategy as seen through `featureStrategiesStore`
(`IFeatureStrategy`): its id and the project it belongs to. -/
structure FeatureStrategy where
  id : String
  projectId : String
deriving DecidableEq

/-- The acting user: `Partial<Pick<User, 'username' | 'email'>>`. `none`
models an absent (`undefined`) field; `some ""` models an empty string. -/
structure Actor where
  email : Option String
  username : Option String
deriving DecidableEq

/-- Audit event types `SEGMENT_CREATED`, `SEGMENT_UPDATED`, `SEGMENT_DELETED`. -/
inductive SegmentEventType where
| created
| updated
| deleted
deriving DecidableEq

/-- An audit event as passed to `eventStore.store`. -/
structure SegmentEvent where
  type : SegmentEventType
  createdBy : Option String
  data : Segment
  preData : Option Segment
deriving DecidableEq

/-- The combined state of the external stores: segment records, the
many-to-many segment-strategy link table, the strategies visible to the
strategy lookup, the audit log, and the store's id counter. -/
structure StoreState where
  segments : List Segment
  links : List (Nat × String)
  strategies : List FeatureStrategy
  events : List SegmentEvent
  nextId : Nat
deriving DecidableEq

/-- The two configured limits, read from `IUnleashConfig` at call time. -/
structure Config where
  segmentValuesLimit : Nat
  strategySegmentsLimit : Nat
deriving DecidableEq

/-- The errors thrown by the service: `BadDataError` and `NameExistsError`
with their messages, the not-found failure of `segmentStore.get`, and the
failure of the external schema validator. -/
inductive SegmentError where
| badData (msg : String)
| nameExists (msg : String)
| notFound
| schemaInvalid
deriving DecidableEq

deriving instance DecidableEq for Except

/-- JavaScript truthiness of a `string | undefined` value: `undefined` and
the empty string are falsy. -/
def jsTruthy : Option String → Bool
| none => false
| some s => s ≠ ""

/-- JavaScript `a || b` on `string | undefined` values: yields `a` when `a`
is truthy, otherwise `b` (as written in `user.email || user.username`). -/
def jsOr (a b : Option String) : Option String :=
  if jsTruthy a then a else b

/-- JavaScript `new Set(xs)` followed by `Array.from`: deduplication keeping
the first occurrence of each element, in insertion order. -/
def jsSet (l : List String) : List String :=
  l.foldl (fun acc x => if x ∈ acc then acc else acc ++ [x]) []

namespace SegmentStore

/-- Modelled from the spec: `SegmentStore.get(id) -> Segment | NotFound`
(§6); the store is missing from the repository, only the service is. -/
def get (st : StoreState) (id : Nat) : Option Segment :=
  st.segments.find? (fun s => s.id = id)

/-- Modelled from the spec: `SegmentStore.getByStrategy(strategyId)` returns
the segments currently linked to the strategy, in store order (§6). -/
def getByStrategy (st : StoreState) (strategyId : String) : List Segment :=
  st.segments.filter (fun s => decide ((s.id, strategyId) ∈ st.links))

/-- Modelled from the spec: `SegmentStore.existsByName(name) -> bool` (§6). -/
def existsByName (st : StoreState) (name : String) : Bool :=
  st.segments.any (fun s => s.name = name)

/-- Modelled from the spec: `SegmentStore.create(input, actor) -> Segment`
with a store-assigned id (§4.1 step 4, §6). -/
def create (st : StoreState) (input : SegmentInput) : StoreState × Segment :=
  let segment : Segment :=
    { id := st.nextId, name := input.name, project := input.project,
      constraints := input.constraints }
  ({ st with segments := st.segments ++ [segment], nextId := st.nextId + 1 },
   segment)

/-- Modelled from the spec: `SegmentStore.update(id, input) -> Segment`, a
full replacement of the record's mutable fields (§3 lifecycle, §6). -/
def update (st : StoreState) (id : Nat) (input : SegmentInput) :
    StoreState × Segment :=
  let segment : Segment :=
    { id := id, name := input.name, project := input.project,
      constraints := input.constraints }
  ({ st with
      segments := st.segments.map (fun s => if s.id = id then segment else s) },
   segment)

/-- Modelled from the spec: `SegmentStore.delete(id)`; the store cascades
removal of the segment's strategy links (§3 lifecycle, §4.1 delete step 2). -/
def delete (st : StoreState) (id : Nat) : StoreState :=
  { st with
      segments := st.segments.filter (fun s => decide (s.id ≠ id)),
      links := st.links.filter (fun p => decide (p.1 ≠ id)) }

/-- Modelled from the spec: `SegmentStore.addToStrategy(segmentId,
strategyId)` creates the link; the link table holds no duplicate pairs and
adding an already-present link does not corrupt state (§3, §7). -/
def addToStrategy (st : StoreState) (id : Nat) (strategyId : String) :
    StoreState :=
  if (id, strategyId) ∈ st.links then st
  else { st with links := st.links ++ [(id, strategyId)] }

/-- Modelled from the spec: `SegmentStore.removeFromStrategy(segmentId,
strategyId)` deletes the link if present; idempotent (§4.2, §7). -/
def removeFromStrategy (st : StoreState) (id : Nat) (strategyId : String) :
    StoreState :=
  { st with links := st.links.filter (fun p => decide (p ≠ (id, strategyId))) }

/-- Modelled from the spec: the strategy lookup
`getStrategiesBySegment(segmentId) -> sequence<Strategy{id, projectId}>`
(§6): the strategies currently linked to the segment. -/
def getStrategiesBySegment (st : StoreState) (id : Nat) :
    List FeatureStrategy :=
  st.strategies.filter (fun f => decide ((id, f.id) ∈ st.links))

/-- Modelled from the spec: `EventSink.store(event)` appends to the
append-only audit trail (§6). -/
def storeEvent (st : StoreState) (e : SegmentEvent) : StoreState :=
  { st with events := st.events ++ [e] }

end SegmentStore

/-- Modelled from the spec: the external input validator
`validate(raw) -> Segment | ValidationError` (§6); raw input is modelled as
either structurally valid (carrying its typed form) or not. -/
def segmentSchemaValidate (raw : Option SegmentInput) :
    Except SegmentError SegmentInput :=
  match raw with
  | none => .error .schemaInvalid
  | some input => .ok input

namespace SegmentService

/-- The `BadDataError` message of the strategy-segment limit checks. -/
def strategyLimitMsg (limit : Nat) : String :=
  "Strategies may not have more than " ++ toString limit ++ " segments"

/-- The `BadDataError` message of the values-limit check. -/
def valuesLimitMsg (limit : Nat) : String :=
  "Segments may not have more than " ++ toString limit ++ " values"

/-- The `BadDataError` message of the project-scope check. -/
def invalidProjectMsg (projectsUsed : List String) : String :=
  "Invalid project. Segment is being used by strategies in other projects: "
    ++ String.intercalate ", " projectsUsed

/-- `SegmentService.validateName`: empty names and names already taken by an
existing segment are rejected. -/
def validateName (st : StoreState) (name : String) :
    Except SegmentError Unit :=
  if name = "" then .error (.badData "Segment name cannot be empty")
  else if SegmentStore.existsByName st name then
    .error (.nameExists "Segment name already exists")
  else .ok ()

/-- The total value count of `SegmentService.validateSegmentValuesLimit`:
`constraints.flatMap((c) => c.values?.length ?? 0).reduce((acc, l) => acc + l, 0)`. -/
def segmentValuesCount (constraints : List Constraint) : Nat :=
  (constraints.map (fun c =>
    match c.values with
    | none => 0
    | some vs => vs.length)).foldl (· + ·) 0

/-- `SegmentService.validateSegmentValuesLimit`. -/
def validateSegmentValuesLimit (cfg : Config) (input : SegmentInput) :
    Except SegmentError Unit :=
  if segmentValuesCount input.constraints > cfg.segmentValuesLimit then
    .error (.badData (valuesLimitMsg cfg.segmentValuesLimit))
  else .ok ()

/-- `SegmentService.validateStrategySegmentLimit`. -/
def validateStrategySegmentLimit (cfg : Config) (st : StoreState)
    (strategyId : String) : Except SegmentError Unit :=
  if (SegmentStore.getByStrategy st strategyId).length ≥
      cfg.strategySegmentsLimit then
    .error (.badData (strategyLimitMsg cfg.strategySegmentsLimit))
  else .ok ()

/-- `SegmentService.validateSegmentProject`. -/
def validateSegmentProject (st : StoreState) (id : Nat)
    (input : SegmentInput) : Except SegmentError Unit :=
  let strategies := SegmentStore.getStrategiesBySegment st id
  let projectsUsed := jsSet (strategies.map (fun f => f.projectId))
  if jsTruthy input.project &&
      (decide (projectsUsed.length > 1) ||
        (decide (projectsUsed.length = 1) &&
          !(decide ((input.project.getD "") ∈ projectsUsed)))) then
    .error (.badData (invalidProjectMsg projectsUsed))
  else .ok ()

/-- `SegmentService.create`: schema validation, then the values-limit check,
then the name check, and only then the mutating store call and the audit
event. -/
def create (cfg : Config) (st : StoreState) (data : Option SegmentInput)
    (user : Actor) : Except SegmentError (StoreState × Segment) :=
  match segmentSchemaValidate data with
  | .error e => .error e
  | .ok input =>
    match validateSegmentValuesLimit cfg input with
    | .error e => .error e
    | .ok _ =>
      match validateName st input.name with
      | .error e => .error e
      | .ok _ =>
        let (st1, segment) := SegmentStore.create st input
        .ok (SegmentStore.storeEvent st1
          { type := .created, createdBy := jsOr user.email user.username,
            data := segment, preData := none }, segment)

/-- `SegmentService.update`: schema validation, values-limit check, load of
`preData`, name check only when the name changed, project-scope check, then
the mutating store call and the audit event. -/
def update (cfg : Config) (st : StoreState) (id : Nat)
    (data : Option SegmentInput) (user : Actor) :
    Except SegmentError StoreState :=
  match segmentSchemaValidate data with
  | .error e => .error e
  | .ok input =>
    match validateSegmentValuesLimit cfg input with
    | .error e => .error e
    | .ok _ =>
      match SegmentStore.get st id with
      | none => .error .notFound
      | some preData =>
        match if preData.name ≠ input.name then validateName st input.name
          else .ok () with
        | .error e => .error e
        | .ok _ =>
          match validateSegmentProject st id input with
          | .error e => .error e
          | .ok _ =>
            let (st1, segment) := SegmentStore.update st id input
            .ok (SegmentStore.storeEvent st1
              { type := .updated,
                createdBy := jsOr user.email user.username,
                data := segment, preData := some preData })

/-- `SegmentService.delete`: load of the segment, the mutating store call,
then the audit event. -/
def delete (st : StoreState) (id : Nat) (user : Actor) :
    Except SegmentError StoreState :=
  match SegmentStore.get st id with
  | none => .error .notFound
  | some segment =>
    .ok (SegmentStore.storeEvent (SegmentStore.delete st id)
      { type := .deleted, createdBy := jsOr user.email user.username,
        data := segment, preData := none })

/-- `SegmentService.addToStrategy`: the per-strategy limit check, then the
store call creating the link. -/
def addToStrategy (cfg : Config) (st : StoreState) (id : Nat)
    (strategyId : String) : Except SegmentError StoreState :=
  match validateStrategySegmentLimit cfg st strategyId with
  | .error e => .error e
  | .ok _ => .ok (SegmentStore.addToStrategy st id strategyId)

/-- `SegmentService.removeFromStrategy`. -/
def removeFromStrategy (st : StoreState) (id : Nat) (strategyId : String) :
    StoreState :=
  SegmentStore.removeFromStrategy st id strategyId

/-- `SegmentService.updateStrategySegments`: the reconciliation algorithm.
The two `Promise.all` batches are embedded as folds: every removal is
applied before any addition is attempted, matching the awaited
remove-batch-then-add-batch sequencing of the source. -/
def updateStrategySegments (cfg : Config) (st : StoreState)
    (strategyId : String) (segmentIds : List Nat) :
    Except SegmentError StoreState :=
  if segmentIds.length > cfg.strategySegmentsLimit then
    .error (.badData (strategyLimitMsg cfg.strategySegmentsLimit))
  else
    let currentSegmentIds :=
      (SegmentStore.getByStrategy st strategyId).map (fun s => s.id)
    let segmentIdsToRemove :=
      currentSegmentIds.filter (fun i => !(decide (i ∈ segmentIds)))
    let st1 := segmentIdsToRemove.foldl
      (fun s i => removeFromStrategy s i strategyId) st
    let segmentIdsToAdd :=
      segmentIds.filter (fun i => !(decide (i ∈ currentSegmentIds)))
    segmentIdsToAdd.foldlM (fun s i => addToStrategy cfg s i strategyId) st1

end SegmentService

/-- Store well-formedness, maintained by the external store: the link table
holds no duplicate pairs (§3), segment ids are unique (store-assigned), and
every link refers to an existing segment. -/
def StoreWF (st : StoreState) : Prop :=
  st.links.Nodup ∧ (st.segments.map Segment.id).Nodup ∧
    ∀ p ∈ st.links, ∃ s ∈ st.segments, s.id = p.1

instance (st : StoreState) : Decidable (StoreWF st) := by
  unfold StoreWF; infer_instance

/-! ### Concrete sample fixtures -/

def sampleSeg (i : Nat) (n : String) : Segment :=
  { id := i, name := n, project := none, constraints := [] }

def sampleState : StoreState :=
  { segments := [sampleSeg 1 "a", sampleSeg 2 "b", sampleSeg 3 "c"],
    links := [(1, "s"), (2, "s")], strategies := [], events := [],
    nextId := 4 }

def sampleCfg : Config :=
  { segmentValuesLimit := 10, strategySegmentsLimit := 2 }

def sampleActor : Actor := { email := none, username := some "u" }

def emptyActor : Actor := { email := none, username := none }

def sampleSmall : StoreState :=
  { segments := [sampleSeg 1 "a", sampleSeg 2 "b", sampleSeg 3 "c"],
    links := [(1, "s")], strategies := [], events := [], nextId := 4 }

def sampleAfter : StoreState :=
  { segments := [sampleSeg 1 "a", sampleSeg 2 "b", sampleSeg 3 "c"],
    links := [(2, "s"), (3, "s")], strategies := [], events := [],
    nextId := 4 }

def sampleNewInput : SegmentInput :=
  { name := "d", project := none,
    constraints := [{ values := some ["x", "y"] }] }

def sampleCreateSeg : Segment :=
  { id := 4, name := "d", project := none,
    constraints := [{ values := some ["x", "y"] }] }

def sampleCreateState : StoreState :=
  { segments := [sampleSeg 1 "a", sampleSeg 2 "b", sampleSeg 3 "c",
      sampleCreateSeg],
    links := [(1, "s"), (2, "s")],
    strategies := [],
    events := [SegmentEvent.mk .created (some "u") sampleCreateSeg none],
    nextId := 5 }

def sampleDeleteState : StoreState :=
  { segments := [sampleSeg 1 "a", sampleSeg 2 "b"],
    links := [(1, "s"), (2, "s")],
    strategies := [],
    events := [SegmentEvent.mk .deleted none (sampleSeg 3 "c") none],
    nextId := 4 }

def sampleSameNameInput : SegmentInput :=
  { name := "a", project := none, constraints := [] }

def sampleProjState : StoreState :=
  { segments := [Segment.mk 1 "a" (some "P") []],
    links := [(1, "t")],
    strategies := [FeatureStrategy.mk "t" "P"],
    events := [], nextId := 2 }

def sampleProjInput : SegmentInput :=
  { name := "a", project := some "Q", constraints := [] }

/-! ### Basic lemmas about the modelled store -/

lemma mem_getByStrategy {st : StoreState} {sid : String} {s : Segment} :
    s ∈ SegmentStore.getByStrategy st sid ↔
      s ∈ st.segments ∧ (s.id, sid) ∈ st.links := by
  simp [SegmentStore.getByStrategy]

lemma mem_map_getByStrategy {st : StoreState} {sid : String} {i : Nat} :
    i ∈ (SegmentStore.getByStrategy st sid).map Segment.id ↔
      ∃ s ∈ st.segments, (s.id, sid) ∈ st.links ∧ s.id = i := by
  simp only [List.mem_map]
  constructor
  · rintro ⟨s, hs, rfl⟩
    exact ⟨s, (mem_getByStrategy.mp hs).1, (mem_getByStrategy.mp hs).2, rfl⟩
  · rintro ⟨s, hs, hl, rfl⟩
    exact ⟨s, mem_getByStrategy.mpr ⟨hs, hl⟩, rfl⟩

lemma storeAdd_links_mem (st : StoreState) (i : Nat) (sid : String)
    (p : Nat × String) :
    p ∈ (SegmentStore.addToStrategy st i sid).links ↔
      p ∈ st.links ∨ p = (i, sid) := by
  unfold SegmentStore.addToStrategy
  split
  · rename_i h
    simp only [iff_self_or]
    rintro rfl; exact h
  · simp

lemma storeAdd_components (st : StoreState) (i : Nat) (sid : String) :
    (SegmentStore.addToStrategy st i sid).segments = st.segments ∧
    (SegmentStore.addToStrategy st i sid).strategies = st.strategies ∧
    (SegmentStore.addToStrategy st i sid).events = st.events ∧
    (SegmentStore.addToStrategy st i sid).nextId = st.nextId := by
  unfold SegmentStore.addToStrategy
  split <;> exact ⟨rfl, rfl, rfl, rfl⟩

lemma serviceAdd_ok_iff (cfg : Config) (st : StoreState) (i : Nat)
    (sid : String) (st' : StoreState) :
    SegmentService.addToStrategy cfg st i sid = Except.ok st' ↔
      (SegmentStore.getByStrategy st sid).length < cfg.strategySegmentsLimit ∧
        st' = SegmentStore.addToStrategy st i sid := by
  unfold SegmentService.addToStrategy SegmentService.validateStrategySegmentLimit
  by_cases h : cfg.strategySegmentsLimit ≤
      (SegmentStore.getByStrategy st sid).length
  · simp only [ge_iff_le, if_pos h]
    constructor
    · intro hc; cases hc
    · intro ⟨h1, _⟩; omega
  · simp only [ge_iff_le, if_neg h]
    constructor
    · intro hc
      cases hc
      exact ⟨by omega, rfl⟩
    · intro ⟨_, h2⟩
      rw [h2]

/-! ### Lemmas about the reconciliation folds -/

lemma removeFold_components (l : List Nat) (sid : String) (st : StoreState) :
    (l.foldl (fun s i => SegmentService.removeFromStrategy s i sid)
        st).segments = st.segments ∧
    (l.foldl (fun s i => SegmentService.removeFromStrategy s i sid)
        st).strategies = st.strategies ∧
    (l.foldl (fun s i => SegmentService.removeFromStrategy s i sid)
        st).events = st.events ∧
    (l.foldl (fun s i => SegmentService.removeFromStrategy s i sid)
        st).nextId = st.nextId := by
  induction l generalizing st with
  | nil => exact ⟨rfl, rfl, rfl, rfl⟩
  | cons i t ih =>
    simpa [SegmentService.removeFromStrategy,
      SegmentStore.removeFromStrategy] using
        ih (SegmentService.removeFromStrategy st i sid)

lemma removeFold_links_mem (l : List Nat) (sid : String) (st : StoreState)
    (p : Nat × String) :
    p ∈ (l.foldl (fun s i => SegmentService.removeFromStrategy s i sid)
        st).links ↔ p ∈ st.links ∧ ¬(p.1 ∈ l ∧ p.2 = sid) := by
  induction l generalizing st with
  | nil => simp
  | cons i t ih =>
    rw [List.foldl_cons, ih]
    simp only [SegmentService.removeFromStrategy,
      SegmentStore.removeFromStrategy, List.mem_filter,
      decide_eq_true_eq, List.mem_cons]
    constructor
    · rintro ⟨⟨hp, hne⟩, hni⟩
      refine ⟨hp, ?_⟩
      rintro ⟨h1 | h1, h2⟩
      · exact hne (by cases p; simp_all)
      · exact hni ⟨h1, h2⟩
    · rintro ⟨hp, hni⟩
      refine ⟨⟨hp, ?_⟩, ?_⟩
      · rintro rfl
        exact hni ⟨Or.inl rfl, rfl⟩
      · rintro ⟨h1, h2⟩
        exact hni ⟨Or.inr h1, h2⟩

lemma removeFold_links_sublist (l : List Nat) (sid : String)
    (st : StoreState) :
    (l.foldl (fun s i => SegmentService.removeFromStrategy s i sid)
        st).links.Sublist st.links := by
  induction l generalizing st with
  | nil => exact List.Sublist.refl _
  | cons i t ih =>
    rw [List.foldl_cons]
    exact (ih (SegmentService.removeFromStrategy st i sid)).trans
      (List.filter_sublist _)

lemma addFold_ok_spec (cfg : Config) (sid : String) (l : List Nat)
    (st st' : StoreState)
    (h : l.foldlM (fun s i => SegmentService.addToStrategy cfg s i sid) st =
      Except.ok st') :
    st'.segments = st.segments ∧ st'.strategies = st.strategies ∧
    st'.events = st.events ∧ st'.nextId = st.nextId ∧
    ∀ p, p ∈ st'.links ↔ p ∈ st.links ∨ (p.1 ∈ l ∧ p.2 = sid) := by
  induction l generalizing st with
  | nil =>
    simp only [List.foldlM_nil] at h
    cases h
    simp
  | cons i t ih =>
    rw [List.foldlM_cons] at h
    cases hadd : SegmentService.addToStrategy cfg st i sid with
    | error e =>
      rw [hadd] at h
      simp [Bind.bind, Except.bind] at h
    | ok st1 =>
      rw [hadd] at h
      simp only [Bind.bind, Except.bind] at h
      obtain ⟨hlt, rfl⟩ := (serviceAdd_ok_iff cfg st i sid st1).mp hadd
      obtain ⟨c1, c2, c3, c4⟩ := storeAdd_components st i sid
      obtain ⟨h1, h2, h3, h4, h5⟩ := ih _ h
      refine ⟨h1.trans c1, h2.trans c2, h3.trans c3, h4.trans c4, ?_⟩
      intro p
      rw [h5 p, storeAdd_links_mem]
      constructor
      · rintro ((hp | rfl) | ⟨hp1, hp2⟩)
        · exact Or.inl hp
        · exact Or.inr ⟨List.mem_cons_self _ _, rfl⟩
        · exact Or.inr ⟨List.mem_cons_of_mem _ hp1, hp2⟩
      · rintro (hp | ⟨hp1, hp2⟩)
        · exact Or.inl (Or.inl hp)
        · rcases List.mem_cons.mp hp1 with h1 | h1
          · exact Or.inl (Or.inr (by cases p; simp_all))
          · exact Or.inr ⟨h1, hp2⟩

/-! ### Counting lemmas for the per-strategy limit -/

lemma countP_or_disjoint (l : List Segment) (p q : Segment → Bool)
    (hdisj : ∀ s ∈ l, q s = true → p s = false) :
    l.countP (fun s => p s || q s) = l.countP p + l.countP q := by
  induction l with
  | nil => simp
  | cons s t ih =>
    have ht : ∀ x ∈ t, q x = true → p x = false := fun x hx =>
      hdisj x (List.mem_cons_of_mem _ hx)
    cases hq : q s with
    | true =>
      have hp : p s = false := hdisj s (List.mem_cons_self _ _) hq
      simp [List.countP_cons, hp, hq, ih ht]
      omega
    | false =>
      cases hp : p s with
      | true => simp [List.countP_cons, hp, hq, ih ht]; omega
      | false => simp [List.countP_cons, hp, hq, ih ht]

lemma countP_id_eq_one (l : List Segment) (i : Nat)
    (hid : (l.map Segment.id).Nodup) (hex : ∃ s ∈ l, s.id = i) :
    l.countP (fun s => decide (s.id = i)) = 1 := by
  induction l with
  | nil => simp at hex
  | cons s t ih =>
    simp only [List.map_cons, List.nodup_cons] at hid
    by_cases hsi : s.id = i
    · have ht0 : t.countP (fun s => decide (s.id = i)) = 0 := by
        rw [List.countP_eq_zero]
        intro x hx
        simp only [decide_eq_true_eq]
        intro hxi
        exact hid.1 (by rw [hsi, ← hxi]; exact List.mem_map_of_mem Segment.id hx)
      simp [List.countP_cons, hsi, ht0]
    · obtain ⟨s0, hs0, hs0i⟩ := hex
      rcases List.mem_cons.mp hs0 with rfl | hs0
      · exact absurd hs0i hsi
      · simp [List.countP_cons, hsi, ih hid.2 ⟨s0, hs0, hs0i⟩]

lemma getByStrategy_storeAdd_len (st : StoreState) (i : Nat) (sid : String)
    (hnl : (i, sid) ∉ st.links) (hex : ∃ s ∈ st.segments, s.id = i)
    (hid : (st.segments.map Segment.id).Nodup) :
    (SegmentStore.getByStrategy (SegmentStore.addToStrategy st i sid)
        sid).length = (SegmentStore.getByStrategy st sid).length + 1 := by
  have hseg : (SegmentStore.addToStrategy st i sid).segments = st.segments :=
    (storeAdd_components st i sid).1
  unfold SegmentStore.getByStrategy
  rw [hseg, ← List.countP_eq_length_filter, ← List.countP_eq_length_filter]
  have hcong : st.segments.countP
      (fun s => decide ((s.id, sid) ∈ (SegmentStore.addToStrategy st i sid).links)) =
      st.segments.countP
        (fun s => decide ((s.id, sid) ∈ st.links) || decide (s.id = i)) := by
    apply List.countP_congr
    intro s _
    simp only [storeAdd_links_mem, decide_eq_true_eq, Bool.or_eq_true,
      Prod.mk.injEq]
    tauto
  rw [hcong, countP_or_disjoint, countP_id_eq_one st.segments i hid hex]
  intro s _ hq
  simp only [decide_eq_true_eq] at hq
  simp only [decide_eq_false_iff_not]
  rw [hq]
  exact hnl

lemma addFold_ok_exists (cfg : Config) (sid : String) (l : List Nat)
    (st : StoreState) (hnd : l.Nodup)
    (hex : ∀ i ∈ l, ∃ s ∈ st.segments, s.id = i)
    (hnl : ∀ i ∈ l, (i, sid) ∉ st.links)
    (hid : (st.segments.map Segment.id).Nodup)
    (hcount : (SegmentStore.getByStrategy st sid).length + l.length ≤
      cfg.strategySegmentsLimit) :
    ∃ st', l.foldlM (fun s i => SegmentService.addToStrategy cfg s i sid) st =
      Except.ok st' := by
  induction l generalizing st with
  | nil => exact ⟨st, rfl⟩
  | cons i t ih =>
    simp only [List.length_cons] at hcount
    have hlt : (SegmentStore.getByStrategy st sid).length <
        cfg.strategySegmentsLimit := by omega
    have hadd : SegmentService.addToStrategy cfg st i sid =
        Except.ok (SegmentStore.addToStrategy st i sid) :=
      (serviceAdd_ok_iff cfg st i sid _).mpr ⟨hlt, rfl⟩
    have hseg : (SegmentStore.addToStrategy st i sid).segments =
        st.segments := (storeAdd_components st i sid).1
    have hlen : (SegmentStore.getByStrategy (SegmentStore.addToStrategy st i
        sid) sid).length = (SegmentStore.getByStrategy st sid).length + 1 :=
      getByStrategy_storeAdd_len st i sid
        (hnl i (List.mem_cons_self _ _))
        (hex i (List.mem_cons_self _ _)) hid
    have hnd' : t.Nodup := (List.nodup_cons.mp hnd).2
    have hni : i ∉ t := (List.nodup_cons.mp hnd).1
    obtain ⟨st', hst'⟩ := ih (SegmentStore.addToStrategy st i sid) hnd'
      (by rw [hseg]; exact fun j hj => hex j (List.mem_cons_of_mem _ hj))
      (by
        intro j hj
        rw [storeAdd_links_mem]
        rintro (hm | he)
        · exact hnl j (List.mem_cons_of_mem _ hj) hm
        · have hji : j = i := ((Prod.mk.injEq _ _ _ _).mp he).1
          exact hni (hji ▸ hj))
      (by rw [hseg]; exact hid)
      (by rw [hlen]; omega)
    exact ⟨st', by rw [List.foldlM_cons, hadd]; exact hst'⟩

lemma updateStrategySegments_else (cfg : Config) (st : StoreState)
    (sid : String) (ids : List Nat)
    (h : ¬ ids.length > cfg.strategySegmentsLimit) :
    SegmentService.updateStrategySegments cfg st sid ids =
      (ids.filter (fun i =>
          !(decide (i ∈ (SegmentStore.getByStrategy st sid).map
            Segment.id)))).foldlM
        (fun s i => SegmentService.addToStrategy cfg s i sid)
        ((((SegmentStore.getByStrategy st sid).map Segment.id).filter
            (fun i => !(decide (i ∈ ids)))).foldl
          (fun s i => SegmentService.removeFromStrategy s i sid) st) := by
  unfold SegmentService.updateStrategySegments
  rw [if_neg h]

lemma getByStrategy_removeFold (st : StoreState) (sid : String)
    (ids : List Nat) :
    SegmentStore.getByStrategy
        ((((SegmentStore.getByStrategy st sid).map Segment.id).filter
            (fun i => !(decide (i ∈ ids)))).foldl
          (fun s i => SegmentService.removeFromStrategy s i sid) st) sid =
      (SegmentStore.getByStrategy st sid).filter
        (fun s => decide (s.id ∈ ids)) := by
  have hseg := (removeFold_components
    (((SegmentStore.getByStrategy st sid).map Segment.id).filter
      (fun i => !(decide (i ∈ ids)))) sid st).1
  conv_lhs => rw [SegmentStore.getByStrategy]
  rw [hseg]
  conv_rhs => rw [SegmentStore.getByStrategy, List.filter_filter]
  apply List.filter_congr
  intro s hs
  by_cases hm : (s.id, sid) ∈ st.links
  · by_cases hi : s.id ∈ ids
    · simp only [removeFold_links_mem, List.mem_filter, decide_eq_true_eq]
      simp [hm, hi]
    · have hcur : s.id ∈ (SegmentStore.getByStrategy st sid).map Segment.id :=
        mem_map_getByStrategy.mpr ⟨s, hs, hm, rfl⟩
      simp only [removeFold_links_mem, List.mem_filter, decide_eq_true_eq]
      simp [hm, hi, hcur]
  · simp only [removeFold_links_mem, List.mem_filter, decide_eq_true_eq]
    simp [hm]

/-- C1: when `updateStrategySegments(strategyId, ids)` succeeds (for ids of
existing segments), the segments subsequently returned by
`getByStrategy(strategyId)` are, as a set, exactly the segments named in
`ids`. -/
theorem spec_C1 (cfg : Config) (st st' : StoreState) (sid : String)
    (ids : List Nat) (hex : ∀ i ∈ ids, ∃ s ∈ st.segments, s.id = i)
    (hok : SegmentService.updateStrategySegments cfg st sid ids =
      Except.ok st') (i : Nat) :
    i ∈ (SegmentStore.getByStrategy st' sid).map Segment.id ↔ i ∈ ids := by
  by_cases hlen : ids.length > cfg.strategySegmentsLimit
  · unfold SegmentService.updateStrategySegments at hok
    rw [if_pos hlen] at hok
    cases hok
  · rw [updateStrategySegments_else cfg st sid ids hlen] at hok
    obtain ⟨hseg', _, _, _, hlinks'⟩ := addFold_ok_spec cfg sid _ _ _ hok
    have hseg1 := (removeFold_components
      (((SegmentStore.getByStrategy st sid).map Segment.id).filter
        (fun i => !(decide (i ∈ ids)))) sid st).1
    rw [mem_map_getByStrategy]
    constructor
    · rintro ⟨s, hs, hl, rfl⟩
      rw [hseg', hseg1] at hs
      rw [hlinks'] at hl
      rcases hl with hl | ⟨hmem, _⟩
      · rw [removeFold_links_mem] at hl
        obtain ⟨hl0, hnr⟩ := hl
        by_contra hni
        apply hnr
        refine ⟨?_, rfl⟩
        rw [List.mem_filter]
        exact ⟨mem_map_getByStrategy.mpr ⟨s, hs, hl0, rfl⟩, by simpa using hni⟩
      · exact (List.mem_filter.mp hmem).1
    · intro hi
      obtain ⟨s, hs, hsi⟩ := hex i hi
      refine ⟨s, by rw [hseg', hseg1]; exact hs, ?_, hsi⟩
      rw [hlinks']
      by_cases hc : i ∈ (SegmentStore.getByStrategy st sid).map Segment.id
      · left
        rw [removeFold_links_mem]
        obtain ⟨s0, _, hl0, hs0i⟩ := mem_map_getByStrategy.mp hc
        refine ⟨by rw [hsi, ← hs0i]; exact hl0, ?_⟩
        rintro ⟨hmem, _⟩
        rw [hsi, List.mem_filter] at hmem
        simp only [Bool.not_eq_true', decide_eq_false_iff_not] at hmem
        exact hmem.2 hi
      · right
        refine ⟨?_, rfl⟩
        rw [hsi, List.mem_filter]
        simp only [Bool.not_eq_true', decide_eq_false_iff_not]
        exact ⟨hi, hc⟩

/-- C2: an oversized id list is rejected upfront with the limit error;
otherwise, because every removal is applied before any addition and each
addition's limit check sees the already-shrunk link set, reconciliation to
any duplicate-free list of at most `strategySegmentsLimit` existing segment
ids succeeds — in particular a 1-for-1 swap at exactly the limit. -/
theorem spec_C2 (cfg : Config) (st : StoreState) (sid : String)
    (ids : List Nat) (hwf : StoreWF st) :
    (ids.length > cfg.strategySegmentsLimit →
      SegmentService.updateStrategySegments cfg st sid ids =
        Except.error (SegmentError.badData
          (SegmentService.strategyLimitMsg cfg.strategySegmentsLimit))) ∧
    (ids.Nodup → ids.length ≤ cfg.strategySegmentsLimit →
      (∀ i ∈ ids, ∃ s ∈ st.segments, s.id = i) →
      ∃ st', SegmentService.updateStrategySegments cfg st sid ids =
        Except.ok st') := by
  obtain ⟨hlk, hid, hfk⟩ := hwf
  constructor
  · intro hlen
    unfold SegmentService.updateStrategySegments
    rw [if_pos hlen]
  · intro hnd hle hex
    have hlen : ¬ ids.length > cfg.strategySegmentsLimit := by omega
    rw [updateStrategySegments_else cfg st sid ids hlen]
    set cur := (SegmentStore.getByStrategy st sid).map Segment.id with hcurdef
    set st1 := ((cur.filter (fun i => !(decide (i ∈ ids)))).foldl
      (fun s i => SegmentService.removeFromStrategy s i sid) st) with hst1def
    have hseg1 : st1.segments = st.segments := (removeFold_components _ _ _).1
    have hcurnd : cur.Nodup := by
      have : cur.Sublist (st.segments.map Segment.id) :=
        List.Sublist.map Segment.id (List.filter_sublist _)
      exact this.nodup hid
    have hcount1 : (SegmentStore.getByStrategy st1 sid).length =
        (cur.filter (fun i => decide (i ∈ ids))).length := by
      rw [hst1def, getByStrategy_removeFold st sid ids,
        ← List.countP_eq_length_filter, ← List.countP_eq_length_filter,
        hcurdef, List.countP_map]
      rfl
    have hperm : (cur.filter (fun i => decide (i ∈ ids))).length =
        (ids.filter (fun i => decide (i ∈ cur))).length := by
      apply List.Perm.length_eq
      rw [List.perm_ext_iff_of_nodup (hcurnd.filter _) (hnd.filter _)]
      intro a
      simp only [List.mem_filter, decide_eq_true_eq]
      tauto
    have hsplit := List.length_eq_length_filter_add
      (l := ids) (fun i => decide (i ∈ cur))
    apply addFold_ok_exists
    · exact hnd.filter _
    · intro j hj
      rw [hseg1]
      exact hex j (List.mem_filter.mp hj).1
    · intro j hj
      rw [hst1def, removeFold_links_mem]
      rintro ⟨hl0, _⟩
      obtain ⟨s, hs, hsj⟩ := hfk (j, sid) hl0
      have : j ∈ cur := mem_map_getByStrategy.mpr ⟨s, hs, by rw [hsj]; exact hl0, hsj⟩
      rw [List.mem_filter] at hj
      simp only [Bool.not_eq_true', decide_eq_false_iff_not] at hj
      exact hj.2 this
    · rw [hseg1]; exact hid
    · rw [hcount1, hperm]
      have : (ids.filter (fun i => decide (i ∈ cur))).length +
          (ids.filter (fun i => !(decide (i ∈ cur)))).length = ids.length := by
        omega
      omega

/-- C3: `addToStrategy` fails with the limit error exactly when the number
of segments currently linked to the strategy is at least
`strategySegmentsLimit` (the error carries no mutated state, so the
pre-call link state is intact); below the limit the link is created. -/
theorem spec_C3 (cfg : Config) (st : StoreState) (i : Nat) (sid : String) :
    (SegmentService.addToStrategy cfg st i sid =
        Except.error (SegmentError.badData
          (SegmentService.strategyLimitMsg cfg.strategySegmentsLimit)) ↔
      cfg.strategySegmentsLimit ≤
        (SegmentStore.getByStrategy st sid).length) ∧
    ((SegmentStore.getByStrategy st sid).length <
        cfg.strategySegmentsLimit →
      ∃ st', SegmentService.addToStrategy cfg st i sid = Except.ok st' ∧
        (i, sid) ∈ st'.links ∧ st'.segments = st.segments ∧
        ∀ p ∈ st.links, p ∈ st'.links) := by
  constructor
  · unfold SegmentService.addToStrategy
      SegmentService.validateStrategySegmentLimit
    by_cases h : cfg.strategySegmentsLimit ≤
        (SegmentStore.getByStrategy st sid).length
    · simp only [ge_iff_le, if_pos h]
      simp [h]
    · simp only [ge_iff_le, if_neg h]
      simp [h]
  · intro hlt
    refine ⟨SegmentStore.addToStrategy st i sid,
      (serviceAdd_ok_iff cfg st i sid _).mpr ⟨hlt, rfl⟩, ?_, ?_, ?_⟩
    · rw [storeAdd_links_mem]; exact Or.inr rfl
    · exact (storeAdd_components st i sid).1
    · intro p hp
      rw [storeAdd_links_mem]
      exact Or.inl hp

/-- C8: repeating `addToStrategy` for an already-linked pair creates no
duplicate link and does not double-count against the limit: below the limit
the call returns the store state unchanged, and at or above the limit it
fails with the limit error without counting the existing pair twice. -/
theorem spec_C8 (cfg : Config) (st : StoreState) (i : Nat) (sid : String)
    (hmem : (i, sid) ∈ st.links) :
    SegmentService.addToStrategy cfg st i sid =
      if cfg.strategySegmentsLimit ≤
          (SegmentStore.getByStrategy st sid).length then
        Except.error (SegmentError.badData
          (SegmentService.strategyLimitMsg cfg.strategySegmentsLimit))
      else Except.ok st := by
  unfold SegmentService.addToStrategy
    SegmentService.validateStrategySegmentLimit
  by_cases h : cfg.strategySegmentsLimit ≤
      (SegmentStore.getByStrategy st sid).length
  · simp only [ge_iff_le, if_pos h]
  · simp only [ge_iff_le, if_neg h]
    unfold SegmentStore.addToStrategy
    rw [if_pos hmem]

/-- C9: reconciling a strategy to the id set it already has changes
nothing: when the listed ids are, as a set, exactly the currently linked
ids, `updateStrategySegments` either returns the store state unchanged or
(only when the id list is longer than the limit) rejects upfront without
touching any link. -/
theorem spec_C9 (cfg : Config) (st : StoreState) (sid : String)
    (ids : List Nat)
    (hset : ∀ i, i ∈ ids ↔
      i ∈ (SegmentStore.getByStrategy st sid).map Segment.id) :
    SegmentService.updateStrategySegments cfg st sid ids = Except.ok st ∨
    SegmentService.updateStrategySegments cfg st sid ids =
      Except.error (SegmentError.badData
        (SegmentService.strategyLimitMsg cfg.strategySegmentsLimit)) := by
  by_cases hlen : ids.length > cfg.strategySegmentsLimit
  · right
    unfold SegmentService.updateStrategySegments
    rw [if_pos hlen]
  · left
    rw [updateStrategySegments_else cfg st sid ids hlen]
    have hrm : (((SegmentStore.getByStrategy st sid).map Segment.id).filter
        (fun i => !(decide (i ∈ ids)))) = [] := by
      rw [List.filter_eq_nil_iff]
      intro a ha
      simp only [Bool.not_eq_true', decide_eq_false_iff_not, not_not]
      exact (hset a).mpr ha
    have hadd : (ids.filter (fun i =>
        !(decide (i ∈ (SegmentStore.getByStrategy st sid).map
          Segment.id)))) = [] := by
      rw [List.filter_eq_nil_iff]
      intro a ha
      simp only [Bool.not_eq_true', decide_eq_false_iff_not, not_not]
      exact (hset a).mp ha
    rw [hrm, hadd]
    rfl

/-! ### Inversion lemmas for the CRUD operations -/

lemma create_ok_spec (cfg : Config) (st : StoreState)
    (data : Option SegmentInput) (user : Actor) (st' : StoreState)
    (seg : Segment)
    (h : SegmentService.create cfg st data user = Except.ok (st', seg)) :
    ∃ input, data = some input ∧
      seg = (SegmentStore.create st input).2 ∧
      st' = SegmentStore.storeEvent (SegmentStore.create st input).1
        { type := .created, createdBy := jsOr user.email user.username,
          data := (SegmentStore.create st input).2, preData := none } := by
  cases data with
  | none => simp [SegmentService.create, segmentSchemaValidate] at h
  | some input =>
    refine ⟨input, rfl, ?_⟩
    unfold SegmentService.create segmentSchemaValidate at h
    split at h
    · cases h
    · rename_i input2 heq
      simp only at heq
      cases heq
      split at h
      · cases h
      · split at h
        · cases h
        · rcases hcr : SegmentStore.create st input with ⟨st1, segment⟩
          rw [hcr] at h
          simp only [Except.ok.injEq, Prod.mk.injEq] at h
          exact ⟨h.2.symm, h.1.symm⟩

lemma update_ok_spec (cfg : Config) (st : StoreState) (id : Nat)
    (data : Option SegmentInput) (user : Actor) (st' : StoreState)
    (h : SegmentService.update cfg st id data user = Except.ok st') :
    ∃ input pre, data = some input ∧ SegmentStore.get st id = some pre ∧
      st' = SegmentStore.storeEvent (SegmentStore.update st id input).1
        { type := .updated, createdBy := jsOr user.email user.username,
          data := (SegmentStore.update st id input).2,
          preData := some pre } := by
  cases data with
  | none => simp [SegmentService.update, segmentSchemaValidate] at h
  | some input =>
    unfold SegmentService.update segmentSchemaValidate at h
    split at h
    · cases h
    · rename_i input2 heq
      simp only at heq
      cases heq
      split at h
      · cases h
      · split at h
        · cases h
        · rename_i pre hpre
          split at h
          · cases h
          · split at h
            · cases h
            · rcases hcr : SegmentStore.update st id input with ⟨st1, segment⟩
              rw [hcr] at h
              simp only [Except.ok.injEq] at h
              refine ⟨input, pre, rfl, hpre, ?_⟩
              rw [hcr]
              exact h.symm

lemma delete_ok_spec (st : StoreState) (id : Nat) (user : Actor)
    (st' : StoreState)
    (h : SegmentService.delete st id user = Except.ok st') :
    ∃ pre, SegmentStore.get st id = some pre ∧
      st' = SegmentStore.storeEvent (SegmentStore.delete st id)
        { type := .deleted, createdBy := jsOr user.email user.username,
          data := pre, preData := none } := by
  unfold SegmentService.delete at h
  split at h
  · cases h
  · rename_i pre hpre
    simp only [Except.ok.injEq] at h
    exact ⟨pre, hpre, h.symm⟩

/-- C7: every successful create, update or delete appends exactly one audit
event, to the state in which the store mutation is already applied, of type
`SegmentCreated` / `SegmentUpdated` / `SegmentDeleted`; it carries the new
state for creates, both previous and new state for updates, the previous
state for deletes, and `createdBy` is the actor's email with fallback to
the username. -/
theorem spec_C7 :
    (∀ (cfg : Config) (st : StoreState) (data : Option SegmentInput)
        (user : Actor) (st' : StoreState) (seg : Segment),
      SegmentService.create cfg st data user = Except.ok (st', seg) →
      st'.segments = st.segments ++ [seg] ∧
      st'.events = st.events ++
        [SegmentEvent.mk .created (jsOr user.email user.username)
          seg none]) ∧
    (∀ (cfg : Config) (st : StoreState) (id : Nat)
        (data : Option SegmentInput) (user : Actor) (st' : StoreState),
      SegmentService.update cfg st id data user = Except.ok st' →
      ∃ input pre, data = some input ∧ SegmentStore.get st id = some pre ∧
        st'.segments = (SegmentStore.update st id input).1.segments ∧
        st'.events = st.events ++
          [SegmentEvent.mk .updated (jsOr user.email user.username)
            (SegmentStore.update st id input).2 (some pre)]) ∧
    (∀ (st : StoreState) (id : Nat) (user : Actor) (st' : StoreState),
      SegmentService.delete st id user = Except.ok st' →
      ∃ pre, SegmentStore.get st id = some pre ∧
        st'.segments = (SegmentStore.delete st id).segments ∧
        st'.events = st.events ++
          [SegmentEvent.mk .deleted (jsOr user.email user.username)
            pre none]) := by
  refine ⟨?_, ?_, ?_⟩
  · intro cfg st data user st' seg h
    obtain ⟨input, rfl, hseg, hst'⟩ := create_ok_spec cfg st data user st' seg h
    subst hseg
    subst hst'
    constructor
    · simp [SegmentStore.create, SegmentStore.storeEvent]
    · simp [SegmentStore.create, SegmentStore.storeEvent]
  · intro cfg st id data user st' h
    obtain ⟨input, pre, rfl, hpre, hst'⟩ :=
      update_ok_spec cfg st id data user st' h
    subst hst'
    refine ⟨input, pre, rfl, hpre, ?_, ?_⟩
    · simp [SegmentStore.storeEvent]
    · simp [SegmentStore.update, SegmentStore.storeEvent]
  · intro st id user st' h
    obtain ⟨pre, hpre, hst'⟩ := delete_ok_spec st id user st' h
    subst hst'
    refine ⟨pre, hpre, ?_, ?_⟩
    · simp [SegmentStore.storeEvent]
    · simp [SegmentStore.delete, SegmentStore.storeEvent]

/-- C10: the `createdBy` of every emitted event is computed as
`email || username` with JavaScript falsiness (`jsOr`): an actor with an
empty-string email is attributed by username, and an actor with neither
field yields `createdBy` absent (`undefined`) while the operation still
succeeds and emits its event. -/
theorem spec_C10 :
    (∀ (cfg : Config) (st : StoreState) (data : Option SegmentInput)
        (user : Actor) (out : StoreState × Segment),
      SegmentService.create cfg st data user = Except.ok out →
      ∃ e, out.1.events = st.events ++ [e] ∧
        e.createdBy = jsOr user.email user.username) ∧
    (∀ (cfg : Config) (st : StoreState) (id : Nat)
        (data : Option SegmentInput) (user : Actor) (st' : StoreState),
      SegmentService.update cfg st id data user = Except.ok st' →
      ∃ e, st'.events = st.events ++ [e] ∧
        e.createdBy = jsOr user.email user.username) ∧
    (∀ (st : StoreState) (id : Nat) (user : Actor) (st' : StoreState),
      SegmentService.delete st id user = Except.ok st' →
      ∃ e, st'.events = st.events ++ [e] ∧
        e.createdBy = jsOr user.email user.username) ∧
    jsOr (some "") (some "someuser") = some "someuser" ∧
    jsOr none none = none := by
  refine ⟨?_, ?_, ?_, by simp [jsOr, jsTruthy], by simp [jsOr, jsTruthy]⟩
  · intro cfg st data user out h
    obtain ⟨input, rfl, hseg, hst'⟩ :=
      create_ok_spec cfg st data user out.1 out.2 h
    refine ⟨SegmentEvent.mk .created (jsOr user.email user.username)
      (SegmentStore.create st input).2 none, ?_, rfl⟩
    rw [hst']
    simp [SegmentStore.create, SegmentStore.storeEvent]
  · intro cfg st id data user st' h
    obtain ⟨input, pre, rfl, hpre, hst'⟩ :=
      update_ok_spec cfg st id data user st' h
    refine ⟨SegmentEvent.mk .updated (jsOr user.email user.username)
      (SegmentStore.update st id input).2 (some pre), ?_, rfl⟩
    rw [hst']
    simp [SegmentStore.update, SegmentStore.storeEvent]
  · intro st id user st' h
    obtain ⟨pre, hpre, hst'⟩ := delete_ok_spec st id user st' h
    refine ⟨SegmentEvent.mk .deleted (jsOr user.email user.username)
      pre none, ?_, rfl⟩
    rw [hst']
    simp [SegmentStore.delete, SegmentStore.storeEvent]

/-- C5: a create whose structural validation, values-limit check or name
check fails raises the corresponding typed error without reaching the
mutating store call (the error branches of `create` precede the store
write, so a failed create leaves the store unchanged); a create passing all
checks persists and returns the created segment. -/
theorem spec_C5 (cfg : Config) (st : StoreState) (user : Actor) :
    (SegmentService.create cfg st none user =
      Except.error SegmentError.schemaInvalid) ∧
    (∀ input : SegmentInput,
      SegmentService.segmentValuesCount input.constraints >
          cfg.segmentValuesLimit →
      SegmentService.create cfg st (some input) user =
        Except.error (SegmentError.badData
          (SegmentService.valuesLimitMsg cfg.segmentValuesLimit))) ∧
    (∀ input : SegmentInput,
      SegmentService.segmentValuesCount input.constraints ≤
          cfg.segmentValuesLimit →
      input.name = "" →
      SegmentService.create cfg st (some input) user =
        Except.error (SegmentError.badData "Segment name cannot be empty")) ∧
    (∀ input : SegmentInput,
      SegmentService.segmentValuesCount input.constraints ≤
          cfg.segmentValuesLimit →
      input.name ≠ "" → SegmentStore.existsByName st input.name = true →
      SegmentService.create cfg st (some input) user =
        Except.error (SegmentError.nameExists
          "Segment name already exists")) ∧
    (∀ input : SegmentInput,
      SegmentService.segmentValuesCount input.constraints ≤
          cfg.segmentValuesLimit →
      input.name ≠ "" → SegmentStore.existsByName st input.name = false →
      ∃ st' seg, SegmentService.create cfg st (some input) user =
        Except.ok (st', seg) ∧ seg ∈ st'.segments) := by
  refine ⟨rfl, ?_, ?_, ?_, ?_⟩
  · intro input hgt
    simp only [SegmentService.create, segmentSchemaValidate,
      SegmentService.validateSegmentValuesLimit, if_pos hgt]
  · intro input hle hname
    simp only [SegmentService.create, segmentSchemaValidate,
      SegmentService.validateSegmentValuesLimit,
      if_neg (by omega : ¬ SegmentService.segmentValuesCount
        input.constraints > cfg.segmentValuesLimit),
      SegmentService.validateName, if_pos hname]
  · intro input hle hname hex
    simp only [SegmentService.create, segmentSchemaValidate,
      SegmentService.validateSegmentValuesLimit,
      if_neg (by omega : ¬ SegmentService.segmentValuesCount
        input.constraints > cfg.segmentValuesLimit),
      SegmentService.validateName, if_neg hname, hex, if_pos]
  · intro input hle hname hex
    refine ⟨SegmentStore.storeEvent (SegmentStore.create st input).1
      (SegmentEvent.mk .created (jsOr user.email user.username)
        (SegmentStore.create st input).2 none),
      (SegmentStore.create st input).2, ?_, ?_⟩
    · simp only [SegmentService.create, segmentSchemaValidate,
        SegmentService.validateSegmentValuesLimit,
        if_neg (by omega : ¬ SegmentService.segmentValuesCount
          input.constraints > cfg.segmentValuesLimit),
        SegmentService.validateName, if_neg hname, hex]
      rfl
    · simp [SegmentStore.create, SegmentStore.storeEvent]

/-- C6: updating a segment whose candidate name equals the existing name
skips the name-uniqueness check (the update succeeds although
`existsByName` holds for that very name, absent other violations); when the
name changed, an empty name fails with the empty-name error and a name held
by an existing segment fails with the duplicate-name error. -/
theorem spec_C6 (cfg : Config) (st : StoreState) (id : Nat)
    (input : SegmentInput) (user : Actor) (pre : Segment)
    (hget : SegmentStore.get st id = some pre)
    (hval : SegmentService.segmentValuesCount input.constraints ≤
      cfg.segmentValuesLimit) :
    (pre.name = input.name →
      SegmentService.validateSegmentProject st id input = Except.ok () →
      SegmentStore.existsByName st input.name = true ∧
      ∃ st', SegmentService.update cfg st id (some input) user =
        Except.ok st') ∧
    (pre.name ≠ input.name → input.name = "" →
      SegmentService.update cfg st id (some input) user =
        Except.error (SegmentError.badData "Segment name cannot be empty")) ∧
    (pre.name ≠ input.name → input.name ≠ "" →
      SegmentStore.existsByName st input.name = true →
      SegmentService.update cfg st id (some input) user =
        Except.error (SegmentError.nameExists
          "Segment name already exists")) := by
  refine ⟨?_, ?_, ?_⟩
  · intro hpn hproj
    constructor
    · rw [SegmentStore.existsByName, List.any_eq_true]
      refine ⟨pre, List.mem_of_find?_eq_some hget, by simp [hpn]⟩
    · refine ⟨SegmentStore.storeEvent (SegmentStore.update st id input).1
        (SegmentEvent.mk .updated (jsOr user.email user.username)
          (SegmentStore.update st id input).2 (some pre)), ?_⟩
      simp only [SegmentService.update, segmentSchemaValidate,
        SegmentService.validateSegmentValuesLimit,
        if_neg (by omega : ¬ SegmentService.segmentValuesCount
          input.constraints > cfg.segmentValuesLimit),
        hget, hpn, ne_eq, not_true_eq_false, if_neg, hproj]
      rfl
  · intro hpn hname
    simp only [SegmentService.update, segmentSchemaValidate,
      SegmentService.validateSegmentValuesLimit,
      if_neg (by omega : ¬ SegmentService.segmentValuesCount
        input.constraints > cfg.segmentValuesLimit),
      hget, ne_eq, hpn, not_false_eq_true, if_pos,
      SegmentService.validateName, if_pos hname]
  · intro hpn hname hex
    simp only [SegmentService.update, segmentSchemaValidate,
      SegmentService.validateSegmentValuesLimit,
      if_neg (by omega : ¬ SegmentService.segmentValuesCount
        input.constraints > cfg.segmentValuesLimit),
      hget, ne_eq, hpn, not_false_eq_true, if_pos,
      SegmentService.validateName, if_neg hname, hex]

lemma validateSegmentProject_eq (st : StoreState) (id : Nat)
    (input : SegmentInput) :
    SegmentService.validateSegmentProject st id input =
      if jsTruthy input.project &&
          (decide ((jsSet ((SegmentStore.getStrategiesBySegment st id).map
              (fun f => f.projectId))).length > 1) ||
            (decide ((jsSet ((SegmentStore.getStrategiesBySegment st
                id).map (fun f => f.projectId))).length = 1) &&
              !(decide ((input.project.getD "") ∈
                jsSet ((SegmentStore.getStrategiesBySegment st id).map
                  (fun f => f.projectId)))))) then
        Except.error (SegmentError.badData (SegmentService.invalidProjectMsg
          (jsSet ((SegmentStore.getStrategiesBySegment st id).map
            (fun f => f.projectId)))))
      else Except.ok () := rfl

lemma update_project_stage (cfg : Config) (st : StoreState) (id : Nat)
    (input : SegmentInput) (user : Actor) (pre : Segment)
    (hget : SegmentStore.get st id = some pre)
    (hval : SegmentService.segmentValuesCount input.constraints ≤
      cfg.segmentValuesLimit)
    (hname : (if pre.name ≠ input.name then
        SegmentService.validateName st input.name else Except.ok ()) =
      Except.ok ()) :
    SegmentService.update cfg st id (some input) user =
      match SegmentService.validateSegmentProject st id input with
      | .error e => .error e
      | .ok _ => Except.ok (SegmentStore.storeEvent
          (SegmentStore.update st id input).1
          (SegmentEvent.mk .updated (jsOr user.email user.username)
            (SegmentStore.update st id input).2 (some pre))) := by
  simp only [SegmentService.update, segmentSchemaValidate,
    SegmentService.validateSegmentValuesLimit,
    if_neg (by omega : ¬ SegmentService.segmentValuesCount
      input.constraints > cfg.segmentValuesLimit), hget, hname]

/-- C4: for an update of an existing segment that passes the earlier
checks, the call fails with the invalid-project error if and only if the
candidate's project is set (JavaScript-truthy) and either more than one
distinct project occurs among the strategies linked to the segment, or
exactly one occurs and it is not the candidate's project; with no linked
strategies or an unset project the check passes. -/
theorem spec_C4 (cfg : Config) (st : StoreState) (id : Nat)
    (input : SegmentInput) (user : Actor) (pre : Segment)
    (hget : SegmentStore.get st id = some pre)
    (hval : SegmentService.segmentValuesCount input.constraints ≤
      cfg.segmentValuesLimit)
    (hname : pre.name = input.name ∨
      (input.name ≠ "" ∧ SegmentStore.existsByName st input.name = false)) :
    SegmentService.update cfg st id (some input) user =
        Except.error (SegmentError.badData (SegmentService.invalidProjectMsg
          (jsSet ((SegmentStore.getStrategiesBySegment st id).map
            (fun f => f.projectId))))) ↔
      jsTruthy input.project = true ∧
        (1 < (jsSet ((SegmentStore.getStrategiesBySegment st id).map
            (fun f => f.projectId))).length ∨
          ((jsSet ((SegmentStore.getStrategiesBySegment st id).map
              (fun f => f.projectId))).length = 1 ∧
            input.project.getD "" ∉
              jsSet ((SegmentStore.getStrategiesBySegment st id).map
                (fun f => f.projectId)))) := by
  have hnameok : (if pre.name ≠ input.name then
      SegmentService.validateName st input.name else Except.ok ()) =
      Except.ok () := by
    rcases hname with hpn | ⟨hne, hexf⟩
    · rw [if_neg (by simp [hpn])]
    · by_cases hd : pre.name ≠ input.name
      · rw [if_pos hd]
        unfold SegmentService.validateName
        rw [if_neg hne, hexf]
        simp
      · rw [if_neg hd]
  rw [update_project_stage cfg st id input user pre hget hval hnameok,
    validateSegmentProject_eq]
  by_cases hc : (jsTruthy input.project &&
      (decide ((jsSet ((SegmentStore.getStrategiesBySegment st id).map
          (fun f => f.projectId))).length > 1) ||
        (decide ((jsSet ((SegmentStore.getStrategiesBySegment st
            id).map (fun f => f.projectId))).length = 1) &&
          !(decide ((input.project.getD "") ∈
            jsSet ((SegmentStore.getStrategiesBySegment st id).map
              (fun f => f.projectId))))))) = true
  · rw [if_pos hc]
    simp only [Bool.and_eq_true, Bool.or_eq_true, decide_eq_true_eq,
      Bool.not_eq_true', decide_eq_false_iff_not] at hc
    exact iff_of_true rfl hc
  · rw [if_neg hc]
    simp only [Bool.and_eq_true, Bool.or_eq_true, decide_eq_true_eq,
      Bool.not_eq_true', decide_eq_false_iff_not] at hc
    exact iff_of_false (by simp) hc

/-! ### Witnesses -/

/-- Witness for C1: reconciling the sample strategy from linked ids
`{1, 2}` to `[2, 3]` succeeds and `getByStrategy` then contains id 2. -/
theorem spec_C1_witness :
    2 ∈ (SegmentStore.getByStrategy sampleAfter "s").map Segment.id ↔
      2 ∈ [2, 3] :=
  spec_C1 sampleCfg sampleState sampleAfter "s" [2, 3] (by decide)
    (by decide) 2

/-- Witness for C2: three ids are rejected upfront at limit 2, and the
1-for-1 swap `[1, 2] → [2, 3]` at exactly the limit succeeds. -/
theorem spec_C2_witness :
    SegmentService.updateStrategySegments sampleCfg sampleState "s"
        [1, 2, 3] =
      Except.error (SegmentError.badData
        (SegmentService.strategyLimitMsg sampleCfg.strategySegmentsLimit)) ∧
    ∃ st', SegmentService.updateStrategySegments sampleCfg sampleState "s"
        [2, 3] = Except.ok st' :=
  ⟨(spec_C2 sampleCfg sampleState "s" [1, 2, 3] (by decide)).1 (by decide),
   (spec_C2 sampleCfg sampleState "s" [2, 3] (by decide)).2 (by decide)
     (by decide) (by decide)⟩

/-- Witness for C3: below the limit, adding segment 2 to the sample
strategy succeeds and creates the link. -/
theorem spec_C3_witness :
    ∃ st', SegmentService.addToStrategy sampleCfg sampleSmall 2 "s" =
      Except.ok st' ∧ (2, "s") ∈ st'.links ∧
      st'.segments = sampleSmall.segments ∧
      ∀ p ∈ sampleSmall.links, p ∈ st'.links :=
  (spec_C3 sampleCfg sampleSmall 2 "s").2 (by decide)

/-- Witness for C4: setting project `"Q"` on a segment used by a strategy
of project `"P"` is rejected with the invalid-project error. -/
theorem spec_C4_witness :
    SegmentService.update sampleCfg sampleProjState 1
        (some sampleProjInput) sampleActor =
        Except.error (SegmentError.badData (SegmentService.invalidProjectMsg
          (jsSet ((SegmentStore.getStrategiesBySegment sampleProjState
            1).map (fun f => f.projectId))))) ↔
      jsTruthy sampleProjInput.project = true ∧
        (1 < (jsSet ((SegmentStore.getStrategiesBySegment sampleProjState
            1).map (fun f => f.projectId))).length ∨
          ((jsSet ((SegmentStore.getStrategiesBySegment sampleProjState
              1).map (fun f => f.projectId))).length = 1 ∧
            sampleProjInput.project.getD "" ∉
              jsSet ((SegmentStore.getStrategiesBySegment sampleProjState
                1).map (fun f => f.projectId)))) :=
  spec_C4 sampleCfg sampleProjState 1 sampleProjInput sampleActor
    (Segment.mk 1 "a" (some "P") []) (by decide) (by decide) (by decide)

/-- Witness for C5: a fresh valid input is created successfully and the
created segment is persisted. -/
theorem spec_C5_witness :
    ∃ st' seg, SegmentService.create sampleCfg sampleState
      (some sampleNewInput) sampleActor = Except.ok (st', seg) ∧
      seg ∈ st'.segments :=
  (spec_C5 sampleCfg sampleState sampleActor).2.2.2.2 sampleNewInput
    (by decide) (by decide) (by decide)

/-- Witness for C6: updating segment 1 to its own unchanged name succeeds
although that name exists in the store. -/
theorem spec_C6_witness :
    SegmentStore.existsByName sampleState sampleSameNameInput.name = true ∧
    ∃ st', SegmentService.update sampleCfg sampleState 1
      (some sampleSameNameInput) sampleActor = Except.ok st' :=
  (spec_C6 sampleCfg sampleState 1 sampleSameNameInput sampleActor
    (sampleSeg 1 "a") (by decide) (by decide)).1 (by decide) (by decide)

/-- Witness for C7: the sample create appends exactly the expected
`SegmentCreated` event after the persisted segment. -/
theorem spec_C7_witness :
    sampleCreateState.segments = sampleState.segments ++ [sampleCreateSeg] ∧
    sampleCreateState.events = sampleState.events ++
      [SegmentEvent.mk .created (jsOr sampleActor.email sampleActor.username)
        sampleCreateSeg none] :=
  spec_C7.1 sampleCfg sampleState (some sampleNewInput) sampleActor
    sampleCreateState sampleCreateSeg (by decide)

/-- Witness for C8: re-adding the already-linked pair `(1, "s")` below the
limit returns the store state unchanged. -/
theorem spec_C8_witness :
    SegmentService.addToStrategy sampleCfg sampleSmall 1 "s" =
      if sampleCfg.strategySegmentsLimit ≤
          (SegmentStore.getByStrategy sampleSmall "s").length then
        Except.error (SegmentError.badData
          (SegmentService.strategyLimitMsg sampleCfg.strategySegmentsLimit))
      else Except.ok sampleSmall :=
  spec_C8 sampleCfg sampleSmall 1 "s" (by decide)

/-- Witness for C9: reconciling the sample strategy to its current id set
`[1, 2]` returns the state unchanged (or the upfront error). -/
theorem spec_C9_witness :
    SegmentService.updateStrategySegments sampleCfg sampleState "s" [1, 2] =
      Except.ok sampleState ∨
    SegmentService.updateStrategySegments sampleCfg sampleState "s" [1, 2] =
      Except.error (SegmentError.badData
        (SegmentService.strategyLimitMsg sampleCfg.strategySegmentsLimit)) :=
  spec_C9 sampleCfg sampleState "s" [1, 2]
    (by
      have h : (SegmentStore.getByStrategy sampleState "s").map Segment.id =
          [1, 2] := by decide
      intro i
      rw [h])

/-- Witness for C10: deleting with an actor that has neither email nor
username emits an event whose `createdBy` is absent, with no error. -/
theorem spec_C10_witness :
    ∃ e, sampleDeleteState.events = sampleState.events ++ [e] ∧
      e.createdBy = jsOr emptyActor.email emptyActor.username :=
  spec_C10.2.2.1 sampleState 3 emptyActor sampleDeleteState (by decide)
